import Mathlib

/-!
Shallow embedding of the desktopSynth audio core (Python) in Lean 4.

Numbers are modelled as exact rationals (`ℚ`); Python `int` values as `ℤ`.
Transcendental primitives of the source (`math.sin`, `2**x` in `midi_to_hz`,
`random.shuffle`) are abstracted as explicit function parameters bundled in
`Synth.Prims`, since the properties verified here do not depend on their
values.  Fallible operations (Python statements that can raise an uncaught
exception, such as out-of-range list indexing) return `Option`, with `none`
marking the raised exception.
-/

namespace Synth

/-- Internal sample rate (`SAMPLE_RATE = 44100` in the source modules). -/
def SAMPLE_RATE : ℚ := 44100

/-- Python `int(x)` applied to a float: truncation toward zero. -/
def pyInt (q : ℚ) : ℤ := if 0 ≤ q then ⌊q⌋ else -⌊-q⌋

/-- `s.startswith(pre)`, computed on the character list. -/
def pyStartsWith (s pre : String) : Bool :=
  pre.toList.isPrefixOf s.toList

/-- `s[n:]` (drop the first `n` characters), computed on the character
list. -/
def pyStrDrop (s : String) (n : ℕ) : String :=
  ⟨s.toList.drop n⟩

/-- The numeric value of a digit list (most significant first). -/
def digitsToNat (l : List Char) : ℕ :=
  l.foldl (fun n c => n * 10 + (c.toNat - '0'.toNat)) 0

/-- Python `int(s)` applied to a string: optional minus sign followed by
digits; any other shape raises `ValueError`, modelled as `none`. -/
def pyParseInt (s : String) : Option ℤ :=
  match s.toList with
  | [] => none
  | '-' :: rest =>
      if !rest.isEmpty && rest.all Char.isDigit then
        some (-(digitsToNat rest : ℤ))
      else none
  | l =>
      if l.all Char.isDigit then some ((digitsToNat l : ℤ)) else none

/-- Python `lst[i]` on a list: non-negative indices are direct, negative
indices count from the end, and anything out of range raises `IndexError`
(modelled as `none`). -/
def pyIndex {α : Type} (l : List α) (i : ℤ) : Option α :=
  if 0 ≤ i then l[i.toNat]?
  else if (-i).toNat ≤ l.length then l[l.length - (-i).toNat]?
  else none

/-- Python `lst[i] = a` with the same index semantics as `pyIndex`. -/
def pySet {α : Type} (l : List α) (i : ℤ) (a : α) : Option (List α) :=
  if 0 ≤ i then (if i.toNat < l.length then some (l.set i.toNat a) else none)
  else if (-i).toNat ≤ l.length then some (l.set (l.length - (-i).toNat) a)
  else none

/-- Python `s.split(sep, 1)`: split at the first `'_'` only.  Returns the
parts list; a string without `'_'` yields a single-element list. -/
def pySplitOnceUnderscore (s : String) : List String :=
  match s.toList.findIdx? (· = '_') with
  | none => [s]
  | some i => [⟨s.toList.take i⟩, ⟨s.toList.drop (i + 1)⟩]

/-- Abstracted primitives of the source: `sin2pi t` stands for
`math.sin(2*math.pi*t)`, `sinPi t` for `math.sin(math.pi*t)`, `midiHz n`
for `midi_to_hz(n) = 440 * 2**((n-69)/12)`, and `shuffle` for
`random.shuffle`. -/
structure Prims where
  sin2pi : ℚ → ℚ
  sinPi : ℚ → ℚ
  midiHz : ℤ → ℚ
  shuffle : List ℤ → List ℤ

/-! ### ADSR envelope (`src/audio/envelope.py`) -/

/-- `EnvState` enum. -/
inductive EnvState
  | idle
  | attack
  | decay
  | sustain
  | release
  deriving DecidableEq, Repr

/-- `ADSREnvelope` instance state: the four parameters plus the mutable
fields `_state`, `_level`, `_release_level`. -/
structure ADSREnvelope where
  attack : ℚ
  decay : ℚ
  sustain : ℚ
  release : ℚ
  state : EnvState
  level : ℚ
  releaseLevel : ℚ
  deriving DecidableEq, Repr

/-- `ADSREnvelope.__init__`. -/
def envInit (attack decay sustain release : ℚ) : ADSREnvelope :=
  { attack := attack, decay := decay, sustain := sustain, release := release
    state := EnvState.idle, level := 0, releaseLevel := 0 }

/-- `_time_to_samples`: `max(1, int(seconds * SAMPLE_RATE))`. -/
def timeToSamples (seconds : ℚ) : ℤ :=
  max 1 (pyInt (seconds * SAMPLE_RATE))

/-- `ADSREnvelope.note_on`. -/
def envNoteOn (e : ADSREnvelope) : ADSREnvelope :=
  { e with state := EnvState.attack, releaseLevel := e.level }

/-- `ADSREnvelope.note_off`. -/
def envNoteOff (e : ADSREnvelope) : ADSREnvelope :=
  if e.state = EnvState.idle then e
  else { e with releaseLevel := e.level, state := EnvState.release }

/-- `ADSREnvelope.is_active`. -/
def envIsActive (e : ADSREnvelope) : Bool :=
  e.state ≠ EnvState.idle

/-- `ADSREnvelope._tick`: returns the emitted value and the updated state. -/
def envTick (e : ADSREnvelope) : ℚ × ADSREnvelope :=
  match e.state with
  | EnvState.idle => (0, e)
  | EnvState.attack =>
      let atkRate : ℚ := 1 / (timeToSamples e.attack : ℚ)
      let lv := e.level + atkRate
      if 1 ≤ lv then (1, { e with level := 1, state := EnvState.decay })
      else (lv, { e with level := lv })
  | EnvState.decay =>
      let decRate : ℚ := (1 - e.sustain) / (timeToSamples e.decay : ℚ)
      let lv := e.level - decRate
      if lv ≤ e.sustain then
        (e.sustain, { e with level := e.sustain, state := EnvState.sustain })
      else (lv, { e with level := lv })
  | EnvState.sustain => (e.sustain, { e with level := e.sustain })
  | EnvState.release =>
      let relRate : ℚ := e.releaseLevel / (timeToSamples e.release : ℚ)
      let lv := e.level - relRate
      if lv ≤ 0 then (0, { e with level := 0, state := EnvState.idle })
      else (lv, { e with level := lv })

/-- `ADSREnvelope.render_block`. -/
def envRenderBlock (e : ADSREnvelope) : ℕ → List ℚ × ADSREnvelope
  | 0 => ([], e)
  | n + 1 =>
      let t := envTick e
      let r := envRenderBlock t.2 n
      (t.1 :: r.1, r.2)

/-! ### Wavetable oscillator state (`src/audio/oscillator.py`)

Only the mutable state and the control operations used by the engines are
embedded; the wavetable lookup itself is not needed by any verified claim. -/

/-- `WavetableOscillator` instance state. -/
structure WavetableOscillator where
  wave : String
  phase : ℚ
  deriving DecidableEq, Repr

/-- `WavetableOscillator.__init__`. -/
def oscInit (wave : String) : WavetableOscillator :=
  { wave := wave, phase := 0 }

/-- `WavetableOscillator.set_wave`. -/
def oscSetWave (o : WavetableOscillator) (wave : String) : WavetableOscillator :=
  { o with wave := wave }

/-- `WavetableOscillator.reset_phase`. -/
def oscResetPhase (o : WavetableOscillator) : WavetableOscillator :=
  { o with phase := 0 }

/-- `WAVE_NAMES`. -/
def WAVE_NAMES : List String := ["sine", "saw", "square", "triangle"]

/-! ### State-variable filter (`src/audio/filter.py`) -/

/-- `SVFilter` instance state. -/
structure SVFilter where
  cutoff : ℚ
  resonance : ℚ
  mode : String
  low : ℚ
  band : ℚ
  deriving DecidableEq, Repr

/-- `SVFilter.__init__`. -/
def svfInit (cutoff resonance : ℚ) (mode : String) : SVFilter :=
  { cutoff := cutoff, resonance := resonance, mode := mode, low := 0, band := 0 }

/-- The cutoff clamp performed at the top of `SVFilter.render_block`:
`min(max(self.cutoff, 20.0), SAMPLE_RATE * 0.49)`. -/
def svfClampCutoff (c : ℚ) : ℚ :=
  min (max c 20) (SAMPLE_RATE * (49 / 100))

/-- One iteration of the `SVFilter.render_block` sample loop, acting on the
pair of integrator registers; returns the selected output sample and the
new `(low, band)` pair.  `f` and `q` are the per-block coefficients. -/
def svfStep (f q : ℚ) (mode : String) (lb : ℚ × ℚ) (s : ℚ) : ℚ × (ℚ × ℚ) :=
  let low := lb.1 + f * lb.2
  let high := s - low - q * lb.2
  let band := f * high + lb.2
  let out := if mode = "lp" then low else if mode = "hp" then high else band
  (out, (low, band))

/-- The sample loop of `SVFilter.render_block` over a signal list. -/
def svfLoop (f q : ℚ) (mode : String) : ℚ × ℚ → List ℚ → List ℚ × (ℚ × ℚ)
  | lb, [] => ([], lb)
  | lb, s :: rest =>
      let step := svfStep f q mode lb s
      let r := svfLoop f q mode step.2 rest
      (step.1 :: r.1, r.2)

/-- `SVFilter.render_block`: clamps the cutoff, derives the coefficients
`f = 2*sin(pi*fc/SAMPLE_RATE)` and `q = 2 - 1.99*resonance`, runs the
integrator loop, stores back `low`/`band` and returns the output block. -/
def svfRenderBlock (P : Prims) (st : SVFilter) (signal : List ℚ) :
    List ℚ × SVFilter :=
  let fc := svfClampCutoff st.cutoff
  let f := 2 * P.sinPi (fc / SAMPLE_RATE)
  let q := 2 - (199 / 100) * st.resonance
  let r := svfLoop f q st.mode (st.low, st.band) signal
  (r.1, { st with low := r.2.1, band := r.2.2 })

/-! ### Clock step duration (`src/sequencer/clock.py`) -/

/-- `Clock._step_duration`: base 16th-note duration `60/bpm/4` with swing
skew `swing * 0.33` applied positively to even steps and negatively to odd
steps; `swing == 0` returns the base directly. -/
def stepDuration (bpm swing : ℚ) (step : ℕ) : ℚ :=
  let base := 60 / bpm / 4
  if swing = 0 then base
  else
    let swingAmount := swing * (33 / 100)
    if step % 2 = 0 then base * (1 + swingAmount)
    else base * (1 - swingAmount)

/-! ### FM engine (`src/audio/engines/fm.py`) -/

/-- `ALGORITHMS`: per operator, the list of modulator-source indices and the
carrier flag. -/
def ALGORITHMS : List (List (List ℕ × Bool)) :=
  [ [([], false), ([0], false), ([1], false), ([2], true)],
    [([], false), ([0], false), ([1], true), ([0], true)],
    [([], false), ([0], true), ([0], true), ([], true)],
    [([], true), ([], true), ([0, 1], false), ([2], false)],
    [([], false), ([0], true), ([0], true), ([], true)],
    [([], true), ([], true), ([], true), ([], true)] ]

/-- `N_ALGORITHMS`. -/
def N_ALGORITHMS : ℕ := ALGORITHMS.length

/-- `FMOperator` instance state. -/
structure FMOperator where
  ratio : ℚ
  level : ℚ
  feedback : ℚ
  env : ADSREnvelope
  phase : ℚ
  lastOut : ℚ
  deriving DecidableEq, Repr

/-- `FMOperator.__init__`. -/
def fmOpInit : FMOperator :=
  { ratio := 1, level := 7 / 10, feedback := 0
    env := envInit (5 / 1000) (2 / 10) (5 / 10) (4 / 10)
    phase := 0, lastOut := 0 }

/-- `FMOperator.render_sample`.  The source computes
`sin(2*pi*phase + 2*pi*total_mod)`; here this is `sin2pi (phase + total_mod)`
with the abstract `sin2pi t = sin(2*pi*t)`. -/
def fmOpRenderSample (P : Prims) (op : FMOperator)
    (freqHz modInput envVal : ℚ) : ℚ × FMOperator :=
  let phaseInc := freqHz * op.ratio / SAMPLE_RATE
  let ph0 := op.phase + phaseInc
  let ph := ph0 - ⌊ph0⌋
  let totalMod := modInput + op.feedback * op.lastOut
  let sample := op.level * envVal * P.sin2pi (ph + totalMod)
  (sample, { op with phase := ph, lastOut := sample })

/-- `FMOperator.note_on`. -/
def fmOpNoteOn (op : FMOperator) : FMOperator :=
  { op with env := envNoteOn op.env, phase := 0, lastOut := 0 }

/-- `FMOperator.note_off`. -/
def fmOpNoteOff (op : FMOperator) : FMOperator :=
  { op with env := envNoteOff op.env }

/-- `FMEngine` instance state. -/
structure FMEngine where
  ops : List FMOperator
  algorithm : ℕ
  noteFreq : ℚ
  velocityScale : ℚ
  deriving DecidableEq, Repr

/-- `FMEngine.__init__`: four default operators with ratios 1, 2, 3, 1. -/
def fmInit : FMEngine :=
  { ops := [{ fmOpInit with ratio := 1 }, { fmOpInit with ratio := 2 },
            { fmOpInit with ratio := 3 }, { fmOpInit with ratio := 1 }]
    algorithm := 0, noteFreq := 440, velocityScale := 1 }

/-- `FMEngine.is_active`: any operator envelope active. -/
def fmIsActive (e : FMEngine) : Bool :=
  e.ops.any (fun op => envIsActive op.env)

/-- `FMEngine.note_on`. -/
def fmNoteOn (P : Prims) (e : FMEngine) (note velocity : ℤ) : FMEngine :=
  { e with noteFreq := P.midiHz note
           velocityScale := (velocity : ℚ) / 127
           ops := e.ops.map fmOpNoteOn }

/-- `FMEngine.note_off`. -/
def fmNoteOff (e : FMEngine) : FMEngine :=
  { e with ops := e.ops.map fmOpNoteOff }

/-- The inner per-operator loop of one sample of `FMEngine.render_block`:
processes the (algorithm-entry, operator, envelope-value) triples in
operator index order, reading each operator's modulation input from the
outputs already produced for this sample (`op_outputs[src][i]`; entries not
yet written this sample read as the array's initial `0.0`).  Returns the
carrier sum for this sample and the updated operators. -/
def fmSampleOps (P : Prims) (freq : ℚ) :
    List ((List ℕ × Bool) × FMOperator × ℚ) → List ℚ → ℚ × List FMOperator
  | [], _ => (0, [])
  | (entry, op, envVal) :: rest, outsSoFar =>
      let modInput := (entry.1.map (fun src => outsSoFar.getD src 0)).sum
      let s := fmOpRenderSample P op freq modInput envVal
      let r := fmSampleOps P freq rest (outsSoFar ++ [s.1])
      ((if entry.2 then s.1 else 0) + r.1, s.2 :: r.2)

/-- The `for i in range(n_frames)` loop of `FMEngine.render_block`: the
envelope blocks are consumed head-first, one value per operator per
sample. -/
def fmLoop (P : Prims) (freq : ℚ) (alg : List (List ℕ × Bool)) :
    List FMOperator → List (List ℚ) → ℕ → List ℚ × List FMOperator
  | ops, _, 0 => ([], ops)
  | ops, envBlocks, n + 1 =>
      let envVals := envBlocks.map (fun b => b.headD 0)
      let s := fmSampleOps P freq (alg.zip (ops.zip envVals)) []
      let r := fmLoop P freq alg s.2 (envBlocks.map List.tail) n
      (s.1 :: r.1, r.2)

/-- `FMEngine.render_block`: pre-renders every operator's envelope block,
runs the per-sample operator loop, then divides by the carrier count when
greater than one and scales by the stored velocity. -/
def fmRenderBlock (P : Prims) (e : FMEngine) (nFrames : ℕ) :
    List ℚ × FMEngine :=
  let alg := ALGORITHMS.getD e.algorithm []
  let envPairs := e.ops.map (fun op => envRenderBlock op.env nFrames)
  let envBlocks := envPairs.map Prod.fst
  let ops0 := (e.ops.zip envPairs).map (fun p => { p.1 with env := p.2.2 })
  let r := fmLoop P e.noteFreq alg ops0 envBlocks nFrames
  let nCarriers := (alg.filter (fun entry => entry.2)).length
  let out1 := if 1 < nCarriers then r.1.map (fun s => s / (nCarriers : ℚ)) else r.1
  let out2 := out1.map (fun s => s * e.velocityScale)
  (out2, { e with ops := r.2 })

/-- `FMEngine.set_param`.  `none` models an uncaught `IndexError` from
`self.ops[op_idx]`. -/
def fmSetParam (e : FMEngine) (name : String) (value : ℚ) : Option FMEngine :=
  if name = "algorithm" then
    some { e with algorithm := ((pyInt value) % (N_ALGORITHMS : ℤ)).toNat }
  else
    let parts := pySplitOnceUnderscore name
    if parts.length = 2 ∧ pyStartsWith (parts.getD 0 "") "op" then
      match pyParseInt (pyStrDrop (parts.getD 0 "") 2) with
      | none => some e
      | some opIdx =>
          match pyIndex e.ops opIdx with
          | none => none
          | some op =>
              let attr := parts.getD 1 ""
              let op' :=
                if attr = "ratio" then some { op with ratio := max (1 / 100) value }
                else if attr = "level" then some { op with level := value }
                else if attr = "feedback" then some { op with feedback := value }
                else if attr = "attack" then
                  some { op with env := { op.env with attack := max (1 / 1000) value } }
                else if attr = "decay" then
                  some { op with env := { op.env with decay := max (1 / 1000) value } }
                else if attr = "sustain" then
                  some { op with env := { op.env with sustain := value } }
                else if attr = "release" then
                  some { op with env := { op.env with release := max (1 / 1000) value } }
                else none
              match op' with
              | none => some e
              | some opNew =>
                  match pySet e.ops opIdx opNew with
                  | none => none
                  | some ops' => some { e with ops := ops' }
    else some e

/-! ### Vector engine (`src/audio/engines/vector.py`)

State and the control surface (`note_on`, `note_off`, `is_active`,
`set_param`); the render path of this engine is not needed by any claim. -/

/-- `VectorEngine` instance state.  The two-element `self.xy` list is the
fields `xy0`, `xy1`. -/
structure VectorEngine where
  oscs : List WavetableOscillator
  xy0 : ℚ
  xy1 : ℚ
  lfoRate : ℚ
  lfoDepth : ℚ
  lfoPhase : ℚ
  filt : SVFilter
  env : ADSREnvelope
  noteFreq : ℚ
  velocityScale : ℚ
  deriving DecidableEq, Repr

/-- `VectorEngine.__init__`. -/
def vecInit : VectorEngine :=
  { oscs := [oscInit "sine", oscInit "saw", oscInit "square", oscInit "triangle"]
    xy0 := 1 / 2, xy1 := 1 / 2
    lfoRate := 1 / 2, lfoDepth := 0, lfoPhase := 0
    filt := svfInit 4000 (2 / 10) "lp"
    env := envInit (1 / 100) (2 / 10) (6 / 10) (5 / 10)
    noteFreq := 440, velocityScale := 1 }

/-- `VectorEngine.is_active`. -/
def vecIsActive (e : VectorEngine) : Bool :=
  envIsActive e.env

/-- `VectorEngine.note_on`. -/
def vecNoteOn (P : Prims) (e : VectorEngine) (note velocity : ℤ) : VectorEngine :=
  { e with noteFreq := P.midiHz note
           velocityScale := (velocity : ℚ) / 127
           env := envNoteOn e.env
           oscs := e.oscs.map oscResetPhase }

/-- `VectorEngine.note_off`. -/
def vecNoteOff (e : VectorEngine) : VectorEngine :=
  { e with env := envNoteOff e.env }

/-- The `{"osc_a": 0, "osc_b": 1, "osc_c": 2, "osc_d": 3}.get(name)` lookup
in `VectorEngine.set_param`. -/
def vecOscIdx (name : String) : Option ℕ :=
  if name = "osc_a" then some 0
  else if name = "osc_b" then some 1
  else if name = "osc_c" then some 2
  else if name = "osc_d" then some 3
  else none

/-- `VectorEngine.set_param`.  Never raises: every branch indexes with a
modulo-reduced index or falls through to a no-op. -/
def vecSetParam (e : VectorEngine) (name : String) (value : ℚ) : VectorEngine :=
  if pyStartsWith name "osc_" then
    match vecOscIdx name with
    | some idx =>
        let w := WAVE_NAMES.getD ((pyInt value) % (WAVE_NAMES.length : ℤ)).toNat ""
        match e.oscs[idx]? with
        | some o => { e with oscs := e.oscs.set idx (oscSetWave o w) }
        | none => e
    | none => e
  else if name = "xy_x" then { e with xy0 := value }
  else if name = "xy_y" then { e with xy1 := value }
  else if name = "lfo_rate" then { e with lfoRate := max (1 / 100) value }
  else if name = "lfo_depth" then { e with lfoDepth := value }
  else if name = "filter_cutoff" then { e with filt := { e.filt with cutoff := value } }
  else if name = "filter_res" then { e with filt := { e.filt with resonance := value } }
  else if name = "filter_mode" then
    { e with filt := { e.filt with
        mode := ["lp", "hp", "bp"].getD ((pyInt value) % 3).toNat "" } }
  else if name = "attack" then { e with env := { e.env with attack := max (1 / 1000) value } }
  else if name = "decay" then { e with env := { e.env with decay := max (1 / 1000) value } }
  else if name = "sustain" then { e with env := { e.env with sustain := value } }
  else if name = "release" then { e with env := { e.env with release := max (1 / 1000) value } }
  else e

/-! ### Subtractive engine (`src/audio/engines/subtractive.py`)

State and the control surface; the render path of this engine is not needed
by any claim. -/

/-- `ARP_MODES`. -/
def ARP_MODES : List String := ["off", "up", "down", "random", "chord"]

/-- `SubtractiveEngine` instance state. -/
structure SubtractiveEngine where
  osc1 : WavetableOscillator
  osc2 : WavetableOscillator
  oscMix : ℚ
  detune : ℚ
  octave : ℤ
  filt : SVFilter
  filterEnvAmt : ℚ
  filterBaseCutoff : ℚ
  ampEnv : ADSREnvelope
  filtEnv : ADSREnvelope
  arpMode : String
  arpOctaves : ℤ
  arpNotes : List ℤ
  arpIndex : ℕ
  noteFreq : ℚ
  velocityScale : ℚ
  heldNotes : List ℤ
  deriving DecidableEq, Repr

/-- `SubtractiveEngine.__init__`. -/
def subInit : SubtractiveEngine :=
  { osc1 := oscInit "saw", osc2 := oscInit "square"
    oscMix := 1 / 2, detune := 0, octave := 0
    filt := svfInit 2000 (3 / 10) "lp"
    filterEnvAmt := 1 / 2, filterBaseCutoff := 2000
    ampEnv := envInit (5 / 1000) (15 / 100) (7 / 10) (3 / 10)
    filtEnv := envInit (5 / 1000) (25 / 100) (3 / 10) (3 / 10)
    arpMode := "off", arpOctaves := 1, arpNotes := [], arpIndex := 0
    noteFreq := 440, velocityScale := 1, heldNotes := [] }

/-- `SubtractiveEngine.is_active`. -/
def subIsActive (e : SubtractiveEngine) : Bool :=
  envIsActive e.ampEnv

/-- `SubtractiveEngine._trigger_note`. -/
def subTriggerNote (P : Prims) (e : SubtractiveEngine) (note : ℤ) :
    SubtractiveEngine :=
  let shifted := note + e.octave * 12
  { e with noteFreq := P.midiHz shifted
           ampEnv := envNoteOn e.ampEnv
           filtEnv := envNoteOn e.filtEnv
           osc1 := oscResetPhase e.osc1
           osc2 := oscResetPhase e.osc2 }

/-- `SubtractiveEngine._rebuild_arp_sequence`. -/
def subRebuildArpSequence (P : Prims) (e : SubtractiveEngine) :
    SubtractiveEngine :=
  if e.heldNotes = [] then { e with arpNotes := [] }
  else
    let base := e.heldNotes.mergeSort (fun a b => a ≤ b)
    let notes := ((List.range e.arpOctaves.toNat).map
      (fun octShift => base.map (fun n => n + (octShift : ℤ) * 12))).flatten
    let e' :=
      if e.arpMode = "up" then { e with arpNotes := notes }
      else if e.arpMode = "down" then { e with arpNotes := notes.reverse }
      else if e.arpMode = "random" then { e with arpNotes := P.shuffle notes }
      else if e.arpMode = "chord" then { e with arpNotes := notes }
      else e
    { e' with arpIndex := 0 }

/-- `SubtractiveEngine.note_on`. -/
def subNoteOn (P : Prims) (e : SubtractiveEngine) (note velocity : ℤ) :
    SubtractiveEngine :=
  let e1 := { e with velocityScale := (velocity : ℚ) / 127 }
  let e2 := if note ∈ e1.heldNotes then e1
            else { e1 with heldNotes := e1.heldNotes ++ [note] }
  if e2.arpMode = "off" then subTriggerNote P e2 note
  else subRebuildArpSequence P e2

/-- `SubtractiveEngine.note_off`. -/
def subNoteOff (e : SubtractiveEngine) : SubtractiveEngine :=
  { e with heldNotes := []
           ampEnv := envNoteOff e.ampEnv
           filtEnv := envNoteOff e.filtEnv }

/-- `SubtractiveEngine.set_param`.  Never raises: every index used is
modulo-reduced. -/
def subSetParam (e : SubtractiveEngine) (name : String) (value : ℚ) :
    SubtractiveEngine :=
  let wName := WAVE_NAMES.getD ((pyInt value) % (WAVE_NAMES.length : ℤ)).toNat ""
  if name = "osc1_wave" then { e with osc1 := oscSetWave e.osc1 wName }
  else if name = "osc2_wave" then { e with osc2 := oscSetWave e.osc2 wName }
  else if name = "osc_mix" then { e with oscMix := value }
  else if name = "detune" then { e with detune := value }
  else if name = "octave" then { e with octave := pyInt value }
  else if name = "filter_cutoff" then
    { e with filterBaseCutoff := value, filt := { e.filt with cutoff := value } }
  else if name = "filter_res" then { e with filt := { e.filt with resonance := value } }
  else if name = "filter_mode" then
    { e with filt := { e.filt with
        mode := ["lp", "hp", "bp"].getD ((pyInt value) % 3).toNat "" } }
  else if name = "filter_env_amt" then { e with filterEnvAmt := value }
  else if name = "amp_attack" then
    { e with ampEnv := { e.ampEnv with attack := max (1 / 1000) value } }
  else if name = "amp_decay" then
    { e with ampEnv := { e.ampEnv with decay := max (1 / 1000) value } }
  else if name = "amp_sustain" then
    { e with ampEnv := { e.ampEnv with sustain := value } }
  else if name = "amp_release" then
    { e with ampEnv := { e.ampEnv with release := max (1 / 1000) value } }
  else if name = "filt_attack" then
    { e with filtEnv := { e.filtEnv with attack := max (1 / 1000) value } }
  else if name = "filt_decay" then
    { e with filtEnv := { e.filtEnv with decay := max (1 / 1000) value } }
  else if name = "filt_sustain" then
    { e with filtEnv := { e.filtEnv with sustain := value } }
  else if name = "filt_release" then
    { e with filtEnv := { e.filtEnv with release := max (1 / 1000) value } }
  else if name = "arp_mode" then
    { e with arpMode := ARP_MODES.getD ((pyInt value) % (ARP_MODES.length : ℤ)).toNat "" }
  else if name = "arp_octaves" then { e with arpOctaves := max 1 (pyInt value) }
  else e

/-! ### Engine dispatch (`src/audio/engines/__init__.py`) and Voice
(`src/audio/voice.py`) -/

/-- The closed set of `SynthEngine` implementations. -/
inductive Engine
  | fm (e : FMEngine)
  | vector (e : VectorEngine)
  | subtractive (e : SubtractiveEngine)
  deriving DecidableEq, Repr

/-- `make_engine`: `ENGINE_CLASSES.get(name, FMEngine)()` — an unknown name
silently constructs a fresh `FMEngine`. -/
def makeEngine (name : String) : Engine :=
  if name = "fm" then Engine.fm fmInit
  else if name = "vector" then Engine.vector vecInit
  else if name = "subtractive" then Engine.subtractive subInit
  else Engine.fm fmInit

/-- `SynthEngine.is_active` dispatch. -/
def engineIsActive : Engine → Bool
  | Engine.fm e => fmIsActive e
  | Engine.vector e => vecIsActive e
  | Engine.subtractive e => subIsActive e

/-- `SynthEngine.note_on` dispatch. -/
def engineNoteOn (P : Prims) (g : Engine) (note velocity : ℤ) : Engine :=
  match g with
  | Engine.fm e => Engine.fm (fmNoteOn P e note velocity)
  | Engine.vector e => Engine.vector (vecNoteOn P e note velocity)
  | Engine.subtractive e => Engine.subtractive (subNoteOn P e note velocity)

/-- `SynthEngine.note_off` dispatch. -/
def engineNoteOff : Engine → Engine
  | Engine.fm e => Engine.fm (fmNoteOff e)
  | Engine.vector e => Engine.vector (vecNoteOff e)
  | Engine.subtractive e => Engine.subtractive (subNoteOff e)

/-- `SynthEngine.set_param` dispatch.  `none` models an uncaught exception
(only the FM engine can raise). -/
def engineSetParam (g : Engine) (name : String) (value : ℚ) : Option Engine :=
  match g with
  | Engine.fm e => (fmSetParam e name value).map Engine.fm
  | Engine.vector e => some (Engine.vector (vecSetParam e name value))
  | Engine.subtractive e => some (Engine.subtractive (subSetParam e name value))

/-- `Voice` instance state. -/
structure Voice where
  engine : Engine
  currentNote : Option ℤ
  active : Bool
  velocity : ℤ
  engineName : String
  deriving DecidableEq, Repr

/-- `Voice.__init__`. -/
def voiceInit (engineName : String) : Voice :=
  { engine := makeEngine engineName, currentNote := none, active := false
    velocity := 100, engineName := engineName }

/-- `Voice.change_engine`: a no-op when the name matches the stored name,
otherwise replaces the engine wholesale and clears note/active state. -/
def voiceChangeEngine (v : Voice) (engineName : String) : Voice :=
  if engineName ≠ v.engineName then
    { v with engineName := engineName, engine := makeEngine engineName
             currentNote := none, active := false }
  else v

/-- `Voice.note_on`. -/
def voiceNoteOn (P : Prims) (v : Voice) (note velocity : ℤ) : Voice :=
  { v with currentNote := some note, velocity := velocity, active := true
           engine := engineNoteOn P v.engine note velocity }

/-- `Voice.note_off`: releases the engine only; note/active bookkeeping is
untouched. -/
def voiceNoteOff (v : Voice) : Voice :=
  { v with engine := engineNoteOff v.engine }

/-- `Voice.is_free`. -/
def voiceIsFree (v : Voice) : Bool :=
  !v.active && !(engineIsActive v.engine)

/-! ### VoicePool (`src/audio/voice_pool.py`) -/

/-- `N_VOICES`. -/
def N_VOICES : ℕ := 4

/-- `VoicePool` instance state. -/
structure VoicePool where
  voices : List Voice
  nextVoice : ℕ
  deriving DecidableEq, Repr

/-- `VoicePool.__init__`: the four default voices. -/
def poolInit : VoicePool :=
  { voices := ["fm", "vector", "subtractive", "fm"].map voiceInit
    nextVoice := 0 }

/-- `VoicePool.set_track_engine`: raw Python list indexing on
`self.voices[track_idx]` — no modulo reduction; `none` models the
`IndexError` raised for an out-of-range index. -/
def setTrackEngine (p : VoicePool) (trackIdx : ℤ) (engineName : String) :
    Option VoicePool :=
  match pyIndex p.voices trackIdx with
  | none => none
  | some v =>
      match pySet p.voices trackIdx (voiceChangeEngine v engineName) with
      | none => none
      | some vs => some { p with voices := vs }

/-- `VoicePool.set_track_param`: raw Python list indexing, then the engine's
`set_param` (which can itself raise for FM `op{i}` names). -/
def setTrackParam (p : VoicePool) (trackIdx : ℤ) (param : String) (value : ℚ) :
    Option VoicePool :=
  match pyIndex p.voices trackIdx with
  | none => none
  | some v =>
      match engineSetParam v.engine param value with
      | none => none
      | some g =>
          match pySet p.voices trackIdx { v with engine := g } with
          | none => none
          | some vs => some { p with voices := vs }

/-- The free-voice scan of `VoicePool._allocate`: index of the first free
voice in fixed order. -/
def findFreeIdx : List Voice → Option ℕ
  | [] => none
  | v :: rest =>
      if voiceIsFree v then some 0
      else (findFreeIdx rest).map (· + 1)

/-- `VoicePool._allocate`: first free voice, else steal at the round-robin
cursor, advancing the cursor by one (mod `N_VOICES`) on every steal.
The chosen voice is identified by its index. -/
def poolAllocate (p : VoicePool) : ℕ × VoicePool :=
  match findFreeIdx p.voices with
  | some i => (i, p)
  | none => (p.nextVoice % N_VOICES,
             { p with nextVoice := (p.nextVoice + 1) % N_VOICES })

/-- `VoicePool.note_on`: an explicit target is reduced modulo `N_VOICES`;
`None` auto-allocates.  Returns the updated pool and the index of the voice
that received the note. -/
def poolNoteOn (P : Prims) (p : VoicePool) (trackIdx : Option ℤ)
    (note velocity : ℤ) : VoicePool × ℕ :=
  let ip :=
    match trackIdx with
    | some t => ((t % (N_VOICES : ℤ)).toNat, p)
    | none => poolAllocate p
  let i := ip.1
  let p' := ip.2
  match p'.voices[i]? with
  | some v => ({ p' with voices := p'.voices.set i (voiceNoteOn P v note velocity) }, i)
  | none => (p', i)

/-- `VoicePool.note_off`: an explicit target is reduced modulo `N_VOICES`
and released only when its current note matches; a `None` target releases
every voice holding the note. -/
def poolNoteOff (p : VoicePool) (trackIdx : Option ℤ) (note : ℤ) : VoicePool :=
  match trackIdx with
  | some t =>
      let i := (t % (N_VOICES : ℤ)).toNat
      match p.voices[i]? with
      | some v =>
          if v.currentNote = some note then
            { p with voices := p.voices.set i (voiceNoteOff v) }
          else p
      | none => p
  | none =>
      { p with voices :=
          p.voices.map (fun v => if v.currentNote = some note then voiceNoteOff v else v) }

/-! ### Auxiliary definitions for the verification -/

/-- A concrete instantiation of the abstract primitives, used to evaluate
the embedding on closed inputs (the verified properties hold for every
`Prims`). -/
def primsId : Prims :=
  { sin2pi := id, sinPi := id, midiHz := fun _ => 440, shuffle := id }

/-- Pointwise sum of four equally long sample streams (truncating at the
first exhausted stream). -/
def sum4 : List ℚ → List ℚ → List ℚ → List ℚ → List ℚ
  | a :: as, b :: bs, c :: cs, d :: ds => (a + b + c + d) :: sum4 as bs cs ds
  | _, _, _, _ => []

/-- Pointwise arithmetic mean of four sample streams, scaled by `vel`. -/
def mean4 (vel : ℚ) : List ℚ → List ℚ → List ℚ → List ℚ → List ℚ
  | a :: as, b :: bs, c :: cs, d :: ds =>
      ((a + b + c + d) / 4 * vel) :: mean4 vel as bs cs ds
  | _, _, _, _ => []

/-- An independent sine generator, stated from the specification: a phase
accumulator advancing by `freq*ratio/SAMPLE_RATE` per sample (wrapped into
[0,1)), each output scaled by its own envelope value and level. -/
def sineStream (P : Prims) (ratio level freq : ℚ) : ℚ → List ℚ → List ℚ
  | _, [] => []
  | phase, ev :: rest =>
      let ph0 := phase + freq * ratio / SAMPLE_RATE
      let ph := ph0 - ⌊ph0⌋
      (level * ev * P.sin2pi ph) :: sineStream P ratio level freq ph rest

/-- The specification's reading of FM algorithm 5: the arithmetic mean of
four independent sine generators at `ratio_i * note_freq`, each scaled
per-sample by its own envelope value and its level, the whole scaled by the
velocity factor. -/
def specAdditiveMean (P : Prims) (e : FMEngine) (n : ℕ) : List ℚ :=
  match e.ops with
  | [o0, o1, o2, o3] =>
      mean4 e.velocityScale
        (sineStream P o0.ratio o0.level e.noteFreq o0.phase (envRenderBlock o0.env n).1)
        (sineStream P o1.ratio o1.level e.noteFreq o1.phase (envRenderBlock o1.env n).1)
        (sineStream P o2.ratio o2.level e.noteFreq o2.phase (envRenderBlock o2.env n).1)
        (sineStream P o3.ratio o3.level e.noteFreq o3.phase (envRenderBlock o3.env n).1)
  | _ => []

/-- An FM engine state with algorithm 5 (additive) selected; every other
field is the constructor default (in particular all feedbacks are 0). -/
def fmAlg5 : FMEngine := { fmInit with algorithm := 5 }

/-- The documented parameter ranges of the ADSR envelope: time constants at
least 0.001 s and sustain in [0, 1]. -/
def EnvParamsOk (e : ADSREnvelope) : Prop :=
  1 / 1000 ≤ e.attack ∧ 1 / 1000 ≤ e.decay ∧ 1 / 1000 ≤ e.release ∧
    0 ≤ e.sustain ∧ e.sustain ≤ 1

/-- The envelope level invariant: the current level lies in [0, 1] and the
captured release-start level is non-negative. -/
def EnvLevelInv (e : ADSREnvelope) : Prop :=
  0 ≤ e.level ∧ e.level ≤ 1 ∧ 0 ≤ e.releaseLevel

/-- A pool in which all four voices hold a sounding note (every voice busy),
obtained by five auto-allocated note-ons from the fresh pool. -/
def poolBusy : VoicePool :=
  (poolNoteOn primsId
    (poolNoteOn primsId
      (poolNoteOn primsId
        (poolNoteOn primsId
          (poolNoteOn primsId poolInit none 60 100).1 none 61 100).1
        none 62 100).1 none 63 100).1 none 64 100).1

/-! ## Theorems -/

/-- C3 counterexample: the claim states the time-to-sample conversion is
`max(1, round(seconds * 44100))`, but the source uses `int()` (truncation):
at `seconds = 0.00009` (`0.00009 * 44100 = 3.969`) the code yields 3 while
rounding yields 4. -/
theorem timeToSamples_round_counterexample :
    timeToSamples (9 / 100000) ≠ max 1 (round ((9 / 100000 : ℚ) * 44100)) := by
  have h1 : ((9 : ℚ) / 100000) * 44100 = 3969 / 1000 := by norm_num
  have hf : ⌊(3969 / 1000 : ℚ)⌋ = 3 := by
    rw [Int.floor_eq_iff]
    norm_num
  have hr : round ((3969 / 1000 : ℚ)) = 4 := by
    rw [round_eq, Int.floor_eq_iff]
    norm_num
  unfold timeToSamples pyInt SAMPLE_RATE
  rw [h1, if_pos (by norm_num : (0 : ℚ) ≤ 3969 / 1000), hf, hr]
  norm_num

/-- C3 (amended): for every non-negative number of seconds, the envelope's
time-to-sample conversion returns `max(1, floor(seconds * 44100))` (Python
`int()` truncates toward zero, which is `floor` on non-negative input);
consequently zero (or any clamped-minimum) time still yields a transition of
at least one sample. -/
theorem timeToSamples_eq_floor (s : ℚ) (h : 0 ≤ s) :
    timeToSamples s = max 1 ⌊s * 44100⌋ ∧ 1 ≤ timeToSamples s := by
  constructor
  · unfold timeToSamples pyInt SAMPLE_RATE
    rw [if_pos (mul_nonneg h (by norm_num))]
  · exact le_max_left _ _

/-- Witness for `timeToSamples_eq_floor` at `seconds = 0`. -/
theorem timeToSamples_eq_floor_witness :
    timeToSamples 0 = max 1 ⌊(0 : ℚ) * 44100⌋ ∧ 1 ≤ timeToSamples 0 :=
  timeToSamples_eq_floor 0 le_rfl

/-- C7: for every BPM and swing, the clock's step duration is
`base * (1 + 0.33 * swing)` for even-indexed steps and
`base * (1 - 0.33 * swing)` for odd-indexed steps with `base = 60/BPM/4`;
every consecutive even/odd pair sums to exactly `2 * base`; and at BPM 120,
swing 0.5 the durations are 0.145625 s and 0.104375 s summing to 0.25 s. -/
theorem stepDuration_swing_correct (bpm swing : ℚ) (step : ℕ) :
    stepDuration bpm swing step =
      (if step % 2 = 0 then 60 / bpm / 4 * (1 + 33 / 100 * swing)
       else 60 / bpm / 4 * (1 - 33 / 100 * swing)) ∧
    stepDuration bpm swing (2 * step) + stepDuration bpm swing (2 * step + 1) =
      2 * (60 / bpm / 4) ∧
    stepDuration 120 (1 / 2) 0 = 145625 / 1000000 ∧
    stepDuration 120 (1 / 2) 1 = 104375 / 1000000 ∧
    stepDuration 120 (1 / 2) 0 + stepDuration 120 (1 / 2) 1 = 1 / 4 := by
  refine ⟨?_, ?_, by norm_num [stepDuration], by norm_num [stepDuration],
    by norm_num [stepDuration]⟩
  · unfold stepDuration
    by_cases hs : swing = 0
    · subst hs
      rw [if_pos rfl]
      split_ifs <;> ring
    · rw [if_neg hs]
      split_ifs <;> ring
  · unfold stepDuration
    by_cases hs : swing = 0
    · subst hs
      rw [if_pos rfl, if_pos rfl]
      ring
    · rw [if_neg hs, if_neg hs,
        if_pos (by omega : (2 * step) % 2 = 0),
        if_neg (by omega : ¬ (2 * step + 1) % 2 = 0)]
      ring

/-- C9: `SVFilter.render_block` never modifies the stored cutoff (nor the
resonance or mode, so only the integrator registers change); the effective
clamped cutoff is therefore identical on every successive render call, and
the clamp itself is idempotent for every cutoff value, including values
above 0.49 times the sample rate. -/
theorem svfRenderBlock_cutoff_stable (P : Prims) (st : SVFilter)
    (sig1 sig2 : List ℚ) :
    (svfRenderBlock P st sig1).2.cutoff = st.cutoff ∧
    (svfRenderBlock P st sig1).2.resonance = st.resonance ∧
    (svfRenderBlock P st sig1).2.mode = st.mode ∧
    svfClampCutoff ((svfRenderBlock P st sig1).2.cutoff) =
      svfClampCutoff st.cutoff ∧
    svfClampCutoff ((svfRenderBlock P (svfRenderBlock P st sig1).2 sig2).2.cutoff) =
      svfClampCutoff st.cutoff ∧
    (∀ c : ℚ, svfClampCutoff (svfClampCutoff c) = svfClampCutoff c) := by
  refine ⟨rfl, rfl, rfl, rfl, rfl, fun c => ?_⟩
  unfold svfClampCutoff SAMPLE_RATE
  have h20 : (20 : ℚ) ≤ 44100 * (49 / 100) := by norm_num
  have h1 : (20 : ℚ) ≤ min (max c 20) (44100 * (49 / 100)) :=
    le_min (le_max_right c 20) h20
  have h2 : min (max c 20) (44100 * (49 / 100)) ≤ 44100 * (49 / 100) :=
    min_le_right _ _
  rw [max_eq_left h1, min_eq_left h2]

/-- C1 (code bug): the spec promises that an unknown parameter name is a
silent no-op for every engine, and this does hold for the vector and
subtractive engines and for FM names with an in-range operator index or an
unparsable one — but an FM name of the form `op{i}_{attr}` with `i` outside
the operator list's index range raises an uncaught `IndexError`
(`self.ops[op_idx]` is read before any attribute check). -/
theorem fmSetParam_op4_raises :
    fmSetParam fmInit "op4_level" (1 / 2) = none ∧
    fmSetParam fmInit "opx_level" (1 / 2) = some fmInit ∧
    fmSetParam fmInit "op0_bogus" (1 / 2) = some fmInit ∧
    vecSetParam vecInit "totally_unknown" (1 / 2) = vecInit ∧
    subSetParam subInit "totally_unknown" (1 / 2) = subInit :=
  ⟨rfl, rfl, rfl, rfl, rfl⟩

/-- Helper: `List.getD` at an in-range index is a member of the list. -/
theorem mem_getD {α : Type} (l : List α) (d : α) (i : ℕ) (h : i < l.length) :
    l.getD i d ∈ l := by
  induction l generalizing i with
  | nil => simp at h
  | cons a t ih =>
      cases i with
      | zero => simp [List.getD_cons_zero]
      | succ j =>
          rw [List.getD_cons_succ]
          exact List.mem_cons_of_mem a (ih j (by simpa using h))

/-- Helper: an integer reduced modulo a positive natural, then converted to
`ℕ`, is below that natural. -/
theorem emodToNat_lt (a : ℤ) (n : ℕ) (hn : 0 < n) : (a % (n : ℤ)).toNat < n := by
  have h1 : 0 ≤ a % (n : ℤ) := Int.emod_nonneg a (by exact_mod_cast hn.ne')
  have h2 : a % (n : ℤ) < (n : ℤ) := Int.emod_lt_of_pos a (by exact_mod_cast hn)
  omega

/-- C2 counterexample: the claim states `set_track_engine` accepts any
integer index and reduces it modulo the pool size; but on the fresh 4-voice
pool, index 4 raises an uncaught `IndexError` (no modulo is applied in
`set_track_engine` / `set_track_param`). -/
theorem setTrackEngine_modulo_counterexample :
    setTrackEngine poolInit 4 "fm" = none := rfl

/-- C2 (amended): `note_on` and `note_off` reduce an explicit voice index
modulo the pool size `N_VOICES = 4`; the FM algorithm index is reduced
modulo 6 and the wave / filter-mode / arp-mode selectors are reduced modulo
their range on assignment; but `set_track_engine` and `set_track_param`
apply the raw index (plain Python list indexing), raising `IndexError` for
an index at or beyond the pool size. -/
theorem pool_index_wrapping (P : Prims) (p : VoicePool) (t note vel : ℤ)
    (name : String) (value : ℚ) :
    N_VOICES = 4 ∧
    poolNoteOn P p (some t) note vel =
      poolNoteOn P p (some (t % (N_VOICES : ℤ))) note vel ∧
    poolNoteOff p (some t) note = poolNoteOff p (some (t % (N_VOICES : ℤ))) note ∧
    (poolNoteOn P p (some t) note vel).2 = (t % (N_VOICES : ℤ)).toNat ∧
    (t % (N_VOICES : ℤ)).toNat < N_VOICES ∧
    (∀ e : FMEngine,
      fmSetParam e "algorithm" value =
        some { e with algorithm := ((pyInt value) % 6).toNat } ∧
      ((pyInt value) % 6).toNat < 6) ∧
    (∀ s : SubtractiveEngine,
      (subSetParam s "osc1_wave" value).osc1.wave ∈ WAVE_NAMES ∧
      (subSetParam s "filter_mode" value).filt.mode ∈ ["lp", "hp", "bp"] ∧
      (subSetParam s "arp_mode" value).arpMode ∈ ARP_MODES) ∧
    (∀ v : VectorEngine,
      (vecSetParam v "filter_mode" value).filt.mode ∈ ["lp", "hp", "bp"]) ∧
    (p.voices.length = 4 → 4 ≤ t →
      setTrackEngine p t name = none ∧ setTrackParam p t name value = none) := by
  have hmod : (t % (N_VOICES : ℤ)) % (N_VOICES : ℤ) = t % (N_VOICES : ℤ) :=
    Int.emod_emod_of_dvd t dvd_rfl
  refine ⟨rfl, ?_, ?_, ?_, emodToNat_lt t N_VOICES (by norm_num [N_VOICES]),
    fun e => ⟨rfl, emodToNat_lt (pyInt value) 6 (by norm_num)⟩, fun s => ?_,
    fun v => ?_, fun hlen ht => ?_⟩
  · unfold poolNoteOn
    dsimp only
    rw [hmod]
  · unfold poolNoteOff
    dsimp only
    rw [hmod]
  · unfold poolNoteOn
    dsimp only
    cases hg : p.voices[(t % (N_VOICES : ℤ)).toNat]? <;> rfl
  · refine ⟨?_, ?_, ?_⟩
    · exact mem_getD WAVE_NAMES "" _ (emodToNat_lt (pyInt value) 4 (by norm_num))
    · exact mem_getD ["lp", "hp", "bp"] "" _ (emodToNat_lt (pyInt value) 3 (by norm_num))
    · exact mem_getD ARP_MODES "" _ (emodToNat_lt (pyInt value) 5 (by norm_num))
  · exact mem_getD ["lp", "hp", "bp"] "" _ (emodToNat_lt (pyInt value) 3 (by norm_num))
  · have hnone : p.voices[t.toNat]? = none := by
      rw [List.getElem?_eq_none_iff]
      omega
    have hidx : pyIndex p.voices t = none := by
      unfold pyIndex
      rw [if_pos (by omega : (0 : ℤ) ≤ t), hnone]
    constructor
    · unfold setTrackEngine
      rw [hidx]
    · unfold setTrackParam
      rw [hidx]

/-- Witness for `pool_index_wrapping`: on the fresh pool, both setters
raise for index 6. -/
theorem pool_index_wrapping_witness :
    setTrackEngine poolInit 6 "x" = none ∧ setTrackParam poolInit 6 "x" 0 = none :=
  (pool_index_wrapping primsId poolInit 6 60 100 "x" 0).2.2.2.2.2.2.2.2
    rfl (by norm_num)

/-- C10 counterexample: the claim states that `change_engine` with an
unknown engine name always installs a fresh FM engine and clears note/active
state; but when the unknown name equals the voice's stored engine-name
string (here after a previous switch to "wub"), `change_engine` is a no-op
and the note/active state survives. -/
theorem voiceChangeEngine_unknown_counterexample :
    (voiceChangeEngine
        (voiceNoteOn primsId (voiceChangeEngine (voiceInit "fm") "wub") 60 100)
        "wub").currentNote = some 60 ∧
    (voiceChangeEngine
        (voiceNoteOn primsId (voiceChangeEngine (voiceInit "fm") "wub") 60 100)
        "wub").active = true :=
  ⟨rfl, rfl⟩

/-- C10 (amended): `make_engine` with any name outside
{fm, vector, subtractive} silently constructs a fresh default `FMEngine`;
consequently `Voice.change_engine` with an unknown engine name installs a
fresh FM engine and clears note/active state, provided the requested name
differs from the voice's currently stored engine-name string (when it
matches — possible only after a previous unknown-name switch —
`change_engine` is a no-op). -/
theorem makeEngine_unknown_fm (name : String) (v : Voice)
    (h1 : name ≠ "fm") (h2 : name ≠ "vector") (h3 : name ≠ "subtractive")
    (h4 : name ≠ v.engineName) :
    makeEngine name = Engine.fm fmInit ∧
    voiceChangeEngine v name =
      { v with engineName := name, engine := Engine.fm fmInit,
               currentNote := none, active := false } := by
  have hm : makeEngine name = Engine.fm fmInit := by
    unfold makeEngine
    rw [if_neg h1, if_neg h2, if_neg h3]
  refine ⟨hm, ?_⟩
  unfold voiceChangeEngine
  rw [if_pos h4, hm]

/-- Witness for `makeEngine_unknown_fm` at name "wub" on a fresh voice. -/
theorem makeEngine_unknown_fm_witness :
    makeEngine "wub" = Engine.fm fmInit ∧
    voiceChangeEngine (voiceInit "fm") "wub" =
      { voiceInit "fm" with engineName := "wub", engine := Engine.fm fmInit,
                            currentNote := none, active := false } :=
  makeEngine_unknown_fm "wub" (voiceInit "fm")
    (by decide) (by decide) (by decide) (by decide)

set_option maxHeartbeats 2000000 in
/-- C4: from the fresh 4-voice pool, five auto-allocated note-ons with no
intervening note-offs go to voices 0, 1, 2, 3 (the free voices in fixed
scan order) and then steal voice 0, leaving the round-robin cursor at 1;
moreover, whenever no voice is free, `_allocate` steals the voice at the
cursor and advances the cursor by one (mod 4) regardless of which voice was
chosen. -/
theorem pool_five_note_ons (P : Prims) :
    (let r1 := poolNoteOn P poolInit none 60 100
     let r2 := poolNoteOn P r1.1 none 61 100
     let r3 := poolNoteOn P r2.1 none 62 100
     let r4 := poolNoteOn P r3.1 none 63 100
     let r5 := poolNoteOn P r4.1 none 64 100
     [r1.2, r2.2, r3.2, r4.2, r5.2] = [0, 1, 2, 3, 0] ∧ r5.1.nextVoice = 1) ∧
    (∀ q : VoicePool, findFreeIdx q.voices = none →
      poolAllocate q = (q.nextVoice % N_VOICES,
        { q with nextVoice := (q.nextVoice + 1) % N_VOICES })) := by
  refine ⟨⟨?_, ?_⟩, fun q h => ?_⟩
  · rfl
  · rfl
  unfold poolAllocate
  rw [h]

/-- Witness for `pool_five_note_ons`: the all-busy pool obtained after the
five note-ons steals at the cursor and advances it. -/
theorem pool_five_note_ons_witness :
    poolAllocate poolBusy = (poolBusy.nextVoice % N_VOICES,
      { poolBusy with nextVoice := (poolBusy.nextVoice + 1) % N_VOICES }) :=
  (pool_five_note_ons primsId).2 poolBusy rfl

/-- C5: a note-off with an explicit voice target releases that voice's note
if and only if its current note equals the given note, and leaves every
other voice unchanged (in particular a different voice holding the same
note); a targetless note-off releases exactly the voices whose current note
equals the given note. -/
theorem pool_note_off_precision (p : VoicePool) (t note : ℤ) (j : ℕ) :
    (j ≠ (t % (N_VOICES : ℤ)).toNat →
      (poolNoteOff p (some t) note).voices[j]? = p.voices[j]?) ∧
    (∀ v : Voice, p.voices[(t % (N_VOICES : ℤ)).toNat]? = some v →
      (poolNoteOff p (some t) note).voices[(t % (N_VOICES : ℤ)).toNat]? =
        some (if v.currentNote = some note then voiceNoteOff v else v)) ∧
    (∀ v : Voice, p.voices[j]? = some v →
      (poolNoteOff p none note).voices[j]? =
        some (if v.currentNote = some note then voiceNoteOff v else v)) := by
  refine ⟨fun hj => ?_, fun v hv => ?_, fun v hv => ?_⟩
  · unfold poolNoteOff
    dsimp only
    cases hg : p.voices[(t % (N_VOICES : ℤ)).toNat]? with
    | none => rfl
    | some w =>
        dsimp only
        by_cases hn : w.currentNote = some note
        · rw [if_pos hn]
          exact List.getElem?_set_ne (Ne.symm hj)
        · rw [if_neg hn]
  · have hlt : (t % (N_VOICES : ℤ)).toNat < p.voices.length := by
      rcases List.getElem?_eq_some.mp hv with ⟨h, _⟩
      exact h
    unfold poolNoteOff
    dsimp only
    rw [hv]
    dsimp only
    by_cases hn : v.currentNote = some note
    · rw [if_pos hn, if_pos hn]
      exact List.getElem?_set_eq_of_lt _ hlt
    · rw [if_neg hn, if_neg hn]
      exact hv
  · unfold poolNoteOff
    dsimp only
    rw [List.getElem?_map, hv]
    rfl

/-- Witness for `pool_note_off_precision` on a concrete pool: voice 0 and
voice 2 both hold note 60; a note-off targeted at voice 2 leaves voice 0
untouched. -/
theorem pool_note_off_precision_witness :
    (poolNoteOff
        (poolNoteOn primsId (poolNoteOn primsId poolInit (some 2) 60 100).1
          (some 0) 60 100).1
        (some 2) 60).voices[0]? =
      (poolNoteOn primsId (poolNoteOn primsId poolInit (some 2) 60 100).1
        (some 0) 60 100).1.voices[0]? :=
  (pool_note_off_precision
      (poolNoteOn primsId (poolNoteOn primsId poolInit (some 2) 60 100).1
        (some 0) 60 100).1
      2 60 0).1 (by decide)

/-- Helper: the sample count of any envelope segment is at least one, cast
to `ℚ`. -/
theorem one_le_timeToSamples_q (s : ℚ) : (1 : ℚ) ≤ ((timeToSamples s : ℤ) : ℚ) := by
  have h : (1 : ℤ) ≤ timeToSamples s := le_max_left _ _
  exact_mod_cast h

/-- Helper: `_tick` never modifies the envelope parameters, so the
documented ranges are preserved. -/
theorem envTick_paramsOk (e : ADSREnvelope) (hp : EnvParamsOk e) :
    EnvParamsOk (envTick e).2 := by
  obtain ⟨a, d, su, r, st, lv, rl⟩ := e
  cases st <;>
    (dsimp only [envTick]) <;>
    (try split_ifs) <;>
    exact hp

/-- Helper: one `_tick` preserves the level invariant and emits a value in
[0, 1], given parameters in their documented ranges. -/
theorem envTick_inv (e : ADSREnvelope) (hp : EnvParamsOk e) (hi : EnvLevelInv e) :
    EnvLevelInv (envTick e).2 ∧ 0 ≤ (envTick e).1 ∧ (envTick e).1 ≤ 1 := by
  obtain ⟨a, d, su, r, st, lv, rl⟩ := e
  obtain ⟨ha, hd, hr, hs0, hs1⟩ := hp
  obtain ⟨hl0, hl1, hrl⟩ := hi
  dsimp only [EnvParamsOk, EnvLevelInv] at *
  cases st
  case idle =>
      dsimp only [envTick]
      exact ⟨⟨hl0, hl1, hrl⟩, le_refl 0, by norm_num⟩
  case attack =>
      have hc : (1 : ℚ) ≤ ((timeToSamples a : ℤ) : ℚ) := one_le_timeToSamples_q a
      have hc0 : (0 : ℚ) < ((timeToSamples a : ℤ) : ℚ) := by linarith
      have hrate0 : (0 : ℚ) < 1 / ((timeToSamples a : ℤ) : ℚ) := by positivity
      have hrate1 : 1 / ((timeToSamples a : ℤ) : ℚ) ≤ 1 := by
        rw [div_le_one hc0]; linarith
      dsimp only [envTick]
      split_ifs with h
      · exact ⟨⟨by norm_num, le_refl 1, hrl⟩, by norm_num, le_refl 1⟩
      · push_neg at h
        exact ⟨⟨by linarith, by linarith, hrl⟩, by linarith, by linarith⟩
  case decay =>
      have hc : (1 : ℚ) ≤ ((timeToSamples d : ℤ) : ℚ) := one_le_timeToSamples_q d
      have hc0 : (0 : ℚ) < ((timeToSamples d : ℤ) : ℚ) := by linarith
      have hrate0 : (0 : ℚ) ≤ (1 - su) / ((timeToSamples d : ℤ) : ℚ) :=
        div_nonneg (by linarith) (le_of_lt hc0)
      dsimp only [envTick]
      split_ifs with h
      · exact ⟨⟨hs0, hs1, hrl⟩, hs0, hs1⟩
      · push_neg at h
        exact ⟨⟨by linarith, by linarith, hrl⟩, by linarith, by linarith⟩
  case sustain => exact ⟨⟨hs0, hs1, hrl⟩, hs0, hs1⟩
  case release =>
      have hc : (1 : ℚ) ≤ ((timeToSamples r : ℤ) : ℚ) := one_le_timeToSamples_q r
      have hc0 : (0 : ℚ) < ((timeToSamples r : ℤ) : ℚ) := by linarith
      have hrate0 : (0 : ℚ) ≤ rl / ((timeToSamples r : ℤ) : ℚ) :=
        div_nonneg hrl (le_of_lt hc0)
      dsimp only [envTick]
      split_ifs with h
      · exact ⟨⟨le_refl 0, by norm_num, hrl⟩, le_refl 0, by norm_num⟩
      · push_neg at h
        exact ⟨⟨by linarith, by linarith, hrl⟩, by linarith, by linarith⟩

/-- Helper: every value of a rendered envelope block lies in [0, 1]. -/
theorem envRenderBlock_inv (n : ℕ) (e : ADSREnvelope)
    (hp : EnvParamsOk e) (hi : EnvLevelInv e) :
    ∀ v ∈ (envRenderBlock e n).1, 0 ≤ v ∧ v ≤ 1 := by
  induction n generalizing e with
  | zero =>
      intro v hv
      simp only [envRenderBlock, List.not_mem_nil] at hv
  | succ m ih =>
      intro v hv
      simp only [envRenderBlock] at hv
      rcases List.mem_cons.mp hv with h | h
      · subst h
        exact ⟨(envTick_inv e hp hi).2.1, (envTick_inv e hp hi).2.2⟩
      · exact ih (envTick e).2 (envTick_paramsOk e hp) (envTick_inv e hp hi).1 v h

/-- C8: with envelope parameters in their documented ranges, the current
level lies in [0, 1] after initialization and is preserved by `note_on`,
`note_off`, and every per-sample tick in every state; consequently every
rendered envelope value lies in [0, 1]. -/
theorem env_level_invariant :
    (∀ a d s r : ℚ, EnvLevelInv (envInit a d s r)) ∧
    (∀ e : ADSREnvelope, EnvLevelInv e → EnvLevelInv (envNoteOn e)) ∧
    (∀ e : ADSREnvelope, EnvLevelInv e → EnvLevelInv (envNoteOff e)) ∧
    (∀ e : ADSREnvelope, EnvParamsOk e → EnvLevelInv e →
      EnvLevelInv (envTick e).2 ∧ 0 ≤ (envTick e).1 ∧ (envTick e).1 ≤ 1) ∧
    (∀ (e : ADSREnvelope) (n : ℕ), EnvParamsOk e → EnvLevelInv e →
      ∀ v ∈ (envRenderBlock e n).1, 0 ≤ v ∧ v ≤ 1) := by
  refine ⟨fun a d s r => ⟨le_refl 0, by norm_num [envInit], le_refl 0⟩,
    fun e hi => ⟨hi.1, hi.2.1, hi.1⟩, fun e hi => ?_,
    fun e hp hi => envTick_inv e hp hi,
    fun e n hp hi => envRenderBlock_inv n e hp hi⟩
  unfold envNoteOff
  split_ifs with h
  · exact hi
  · exact ⟨hi.1, hi.2.1, hi.1⟩

/-- Witness for `env_level_invariant`: one tick of the default envelope
after a note-on stays inside the invariant. -/
theorem env_level_invariant_witness :
    EnvLevelInv (envTick (envNoteOn (envInit (1 / 100) (1 / 10) (7 / 10) (3 / 10)))).2 ∧
    0 ≤ (envTick (envNoteOn (envInit (1 / 100) (1 / 10) (7 / 10) (3 / 10)))).1 ∧
    (envTick (envNoteOn (envInit (1 / 100) (1 / 10) (7 / 10) (3 / 10)))).1 ≤ 1 :=
  env_level_invariant.2.2.2.1 (envNoteOn (envInit (1 / 100) (1 / 10) (7 / 10) (3 / 10)))
    (by norm_num [EnvParamsOk, envInit, envNoteOn])
    (by norm_num [EnvLevelInv, envInit, envNoteOn])

/-- Helper: an envelope block has exactly the requested number of values. -/
theorem envRenderBlock_length (e : ADSREnvelope) (n : ℕ) :
    (envRenderBlock e n).1.length = n := by
  induction n generalizing e with
  | zero => rfl
  | succ m ih => simp [envRenderBlock, ih]

/-- Helper: the pointwise mean of four streams is the pointwise sum divided
by four and scaled. -/
theorem mean4_eq_sum4 (vel : ℚ) (a b c d : List ℚ) :
    mean4 vel a b c d =
      ((sum4 a b c d).map (fun s => s / 4)).map (fun s => s * vel) := by
  induction a generalizing b c d with
  | nil => cases b <;> cases c <;> cases d <;> rfl
  | cons x xs ih =>
      cases b with
      | nil => cases c <;> cases d <;> rfl
      | cons y ys =>
          cases c with
          | nil => cases d <;> rfl
          | cons z zs =>
              cases d with
              | nil => rfl
              | cons w ws =>
                  simp only [mean4, sum4, List.map_cons, ih]

/-- Helper: with algorithm 5 (no modulator sources, all carriers) and zero
feedback on every operator, the per-sample FM loop produces exactly the
pointwise sum of four independent sine generators. -/
theorem fmLoop_alg5 (P : Prims) (freq : ℚ) :
    ∀ (n : ℕ) (o0 o1 o2 o3 : FMOperator) (e0 e1 e2 e3 : List ℚ),
      o0.feedback = 0 → o1.feedback = 0 → o2.feedback = 0 → o3.feedback = 0 →
      e0.length = n → e1.length = n → e2.length = n → e3.length = n →
      (fmLoop P freq (ALGORITHMS.getD 5 []) [o0, o1, o2, o3]
          [e0, e1, e2, e3] n).1 =
        sum4 (sineStream P o0.ratio o0.level freq o0.phase e0)
             (sineStream P o1.ratio o1.level freq o1.phase e1)
             (sineStream P o2.ratio o2.level freq o2.phase e2)
             (sineStream P o3.ratio o3.level freq o3.phase e3) := by
  intro n
  induction n with
  | zero =>
      intro o0 o1 o2 o3 e0 e1 e2 e3 _ _ _ _ h0 h1 h2 h3
      rw [List.length_eq_zero] at h0 h1 h2 h3
      subst h0; subst h1; subst h2; subst h3
      rfl
  | succ m ih =>
      intro o0 o1 o2 o3 e0 e1 e2 e3 hf0 hf1 hf2 hf3 h0 h1 h2 h3
      rcases e0 with _ | ⟨v0, t0⟩
      · simp at h0
      rcases e1 with _ | ⟨v1, t1⟩
      · simp at h1
      rcases e2 with _ | ⟨v2, t2⟩
      · simp at h2
      rcases e3 with _ | ⟨v3, t3⟩
      · simp at h3
      simp only [List.length_cons, Nat.succ_inj] at h0 h1 h2 h3
      simp only [fmLoop, fmSampleOps, fmOpRenderSample, sineStream, sum4,
        List.map_cons, List.map_nil, List.headD_cons, List.tail_cons,
        List.zip_cons_cons, List.zip_nil_right, List.getD, List.sum_nil,
        hf0, hf1, hf2, hf3, zero_mul, add_zero, zero_add, if_true,
        List.cons.injEq]
      refine ⟨by ring, ?_⟩
      exact ih _ _ _ _ t0 t1 t2 t3 rfl rfl rfl rfl h0 h1 h2 h3

/-- C6: with all four FM operators at zero feedback and algorithm 5
selected (no modulator sources, all four operators carriers), the rendered
block equals, sample for sample, the arithmetic mean of four independent
sine generators at `ratio_i * note_freq`, each scaled per-sample by its own
envelope value and its level, the whole scaled by the stored velocity
factor — which `note_on` sets to `velocity / 127`. -/
theorem fm_algorithm5_additive (P : Prims) (e : FMEngine)
    (o0 o1 o2 o3 : FMOperator) (n : ℕ)
    (hops : e.ops = [o0, o1, o2, o3]) (halg : e.algorithm = 5)
    (hf0 : o0.feedback = 0) (hf1 : o1.feedback = 0)
    (hf2 : o2.feedback = 0) (hf3 : o3.feedback = 0) :
    (fmRenderBlock P e n).1 = specAdditiveMean P e n ∧
    (∀ note vel : ℤ, (fmNoteOn P e note vel).velocityScale = (vel : ℚ) / 127) := by
  refine ⟨?_, fun note vel => rfl⟩
  have key := fmLoop_alg5 P e.noteFreq n
    { o0 with env := (envRenderBlock o0.env n).2 }
    { o1 with env := (envRenderBlock o1.env n).2 }
    { o2 with env := (envRenderBlock o2.env n).2 }
    { o3 with env := (envRenderBlock o3.env n).2 }
    (envRenderBlock o0.env n).1 (envRenderBlock o1.env n).1
    (envRenderBlock o2.env n).1 (envRenderBlock o3.env n).1
    hf0 hf1 hf2 hf3
    (envRenderBlock_length o0.env n) (envRenderBlock_length o1.env n)
    (envRenderBlock_length o2.env n) (envRenderBlock_length o3.env n)
  unfold fmRenderBlock specAdditiveMean
  rw [halg, hops]
  dsimp only [List.map_cons, List.map_nil, List.zip_cons_cons,
    List.zip_nil_right, List.zip_nil_left]
  rw [key]
  have hflt : (List.filter (fun entry => entry.2) (ALGORITHMS.getD 5 [])).length = 4 :=
    rfl
  rw [hflt, if_pos (by norm_num : (1 : ℕ) < 4), mean4_eq_sum4]
  norm_num

/-- Witness for `fm_algorithm5_additive`: the default FM engine with
algorithm 5 renders a 2-sample block equal to the additive mean. -/
theorem fm_algorithm5_additive_witness :
    (fmRenderBlock primsId fmAlg5 2).1 = specAdditiveMean primsId fmAlg5 2 :=
  (fm_algorithm5_additive primsId fmAlg5
    { fmOpInit with ratio := 1 } { fmOpInit with ratio := 2 }
    { fmOpInit with ratio := 3 } { fmOpInit with ratio := 1 }
    2 rfl rfl rfl rfl rfl rfl).1

end Synth
